import Mathlib

set_option maxHeartbeats 1000000
set_option linter.unusedVariables false

/-! Formal model of `src/main.py` from the `vk_publish_comics` repository: a
script that downloads a random xkcd comic strip and republishes it on a VK
community wall, deleting the local temporary file afterwards.  Decoded JSON
bodies are modelled by the inductive type `Json`, Python exceptions by `Exc`,
HTTP interactions by explicit response values passed in as arguments, the
filesystem by the list of file paths present in the working directory, and
the `retry` decorator by an explicit attempt-counting function. -/

/-- Decoded JSON values, as produced by `response.json()`.  Numbers are
modelled as integers (no float arithmetic occurs in the script). -/
inductive Json where
  | null
  | bool (b : Bool)
  | num (n : Int)
  | str (s : String)
  | arr (xs : List Json)
  | obj (fields : List (String × Json))

/-- Python exceptions that the script can raise.  `connError` is
`requests.exceptions.ConnectionError`; `httpStatusError` is the
`requests.HTTPError` raised by `Response.raise_for_status`; `apiError` is the
`requests.HTTPError(error.get("error_msg"))` raised by
`check_api_vk_response` for a platform-reported error (an application-level
failure, distinct from a transport error); the rest model the built-in
Python exceptions reachable in the modelled code paths. -/
inductive Exc where
  | connError
  | httpStatusError (code : Nat)
  | apiError (msg : Option Json)
  | attributeError
  | typeError
  | indexError
  | fileNotFoundError

/-- Lookup of a key in the field list of a JSON object (Python `dict` keys
are unique, so first-match lookup is faithful). -/
def lookupField : List (String × Json) → String → Option Json
  | [], _ => none
  | (k, v) :: rest, key => if k = key then some v else lookupField rest key

/-- Python `x.get(key)` where `x` is expected to be a `dict`: returns the
value (or `None`) on a dict, raises `AttributeError` on any other value. -/
def dictGet (j : Json) (key : String) : Except Exc (Option Json) :=
  match j with
  | Json.obj fields => Except.ok (lookupField fields key)
  | _ => Except.error Exc.attributeError

/-- Python `o.get(key)` where `o` may be `None` (the result of a previous
`.get`): `None.get(...)` raises `AttributeError`. -/
def pyGetOpt (o : Option Json) (key : String) : Except Exc (Option Json) :=
  match o with
  | some j => dictGet j key
  | none => Except.error Exc.attributeError

/-- Python `o[0]` on the result of a `.get`: indexing a non-list raises
`TypeError` (or `AttributeError`-like failures, folded into `typeError`),
indexing an empty list raises `IndexError`. -/
def pyIndex0 (o : Option Json) : Except Exc Json :=
  match o with
  | some (Json.arr (x :: _)) => Except.ok x
  | some (Json.arr []) => Except.error Exc.indexError
  | _ => Except.error Exc.typeError

/-- Python truthiness of a decoded JSON value. -/
def truthy : Json → Bool
  | Json.null => false
  | Json.bool b => b
  | Json.num n => n != 0
  | Json.str s => s != ""
  | Json.arr xs => !xs.isEmpty
  | Json.obj fields => !fields.isEmpty

/-- An HTTP response as seen by the script: its status code and decoded
JSON body. -/
structure HttpResponse where
  statusCode : Nat
  body : Json

/-- Model of `requests.Response.raise_for_status`: raises `HTTPError` for
4xx and 5xx status codes, returns normally otherwise. -/
def raise_for_status (response : HttpResponse) : Except Exc Unit :=
  if 400 ≤ response.statusCode ∧ response.statusCode < 600 then
    Except.error (Exc.httpStatusError response.statusCode)
  else Except.ok ()

/-- Model of `check_api_vk_response` (src/main.py lines 24-27): if the
decoded body carries a truthy `error` field, raise
`requests.HTTPError(error.get("error_msg"))`. -/
def check_api_vk_response (body : Json) : Except Exc Unit :=
  match dictGet body "error" with
  | Except.error e => Except.error e
  | Except.ok none => Except.ok ()
  | Except.ok (some err) =>
    if truthy err then
      match dictGet err "error_msg" with
      | Except.error e => Except.error e
      | Except.ok msg => Except.error (Exc.apiError msg)
    else Except.ok ()

/-! URL handling: models of `urllib.parse.urlsplit(url).path`,
`urllib.parse.unquote_plus` and `os.path.splitext`, used by
`get_file_extension` (src/main.py lines 48-61). -/

/-- Split a character list at the first occurrence of `c`: returns the
prefix before `c` and, when `c` occurs, the suffix after it. -/
def splitFirst (c : Char) : List Char → List Char × Option (List Char)
  | [] => ([], none)
  | x :: xs =>
    if x = c then ([], some xs)
    else (x :: (splitFirst c xs).1, (splitFirst c xs).2)

/-- Characters allowed in a URL scheme (letters, digits, `+`, `-`, `.`). -/
def schemeChar (c : Char) : Bool :=
  c.isAlpha || c.isDigit || c == '+' || c == '-' || c == '.'

/-- A valid scheme is nonempty, starts with a letter and consists of scheme
characters only. -/
def isValidScheme (l : List Char) : Bool :=
  match l with
  | [] => false
  | c0 :: _ => c0.isAlpha && l.all schemeChar

/-- Strip the fragment: everything from the first `'#'` on. -/
def removeFragment (u : List Char) : List Char := (splitFirst '#' u).1

/-- Strip a leading `scheme:` when the text before the first `':'` is a
valid scheme, as `urlsplit` does. -/
def splitScheme (u : List Char) : List Char :=
  match splitFirst ':' u with
  | (before, some rest) => if isValidScheme before then rest else u
  | (_, none) => u

/-- A character ending the network-location part (`/`, `?` or `#`). -/
def notNetlocDelim (c : Char) : Bool := !(c == '/' || c == '?' || c == '#')

/-- Strip a leading `//netloc`, as `urlsplit` does: when the remaining URL
starts with `//`, the netloc extends to the first `/`, `?` or `#`. -/
def dropNetloc (u : List Char) : List Char :=
  match u with
  | c1 :: c2 :: rest =>
    if c1 = '/' ∧ c2 = '/' then rest.dropWhile notNetlocDelim else u
  | _ => u

/-- Strip the query: everything from the first `'?'` on. -/
def removeQuery (u : List Char) : List Char := (splitFirst '?' u).1

/-- Model of `urllib.parse.urlsplit(url, scheme='', allow_fragments=True).path`:
fragment is removed first, then the scheme, then the netloc, then the
query. -/
def urlsplitPath (u : List Char) : List Char :=
  removeQuery (dropNetloc (splitScheme (removeFragment u)))

/-- First step of `unquote_plus`: `'+'` becomes a space. -/
def plusToSpace (l : List Char) : List Char :=
  l.map (fun c => if c = '+' then ' ' else c)

/-- Numeric value of a hexadecimal digit, if any. -/
def hexVal (c : Char) : Option Nat :=
  if '0' ≤ c ∧ c ≤ '9' then some (c.toNat - '0'.toNat)
  else if 'a' ≤ c ∧ c ≤ 'f' then some (c.toNat - 'a'.toNat + 10)
  else if 'A' ≤ c ∧ c ≤ 'F' then some (c.toNat - 'A'.toNat + 10)
  else none

/-- Percent-decoding as done by `urllib.parse.unquote`: each valid `%hh`
escape becomes the byte it denotes, invalid escapes are left untouched.
Escapes are decoded bytewise; reassembly of multi-byte UTF-8 sequences is
out of scope (no claim exercises it).  The `fuel` argument only makes the
recursion structural: every step consumes at least one character, so
`fuel = length` always suffices. -/
def percentDecodeFuel : Nat → List Char → List Char
  | 0, l => l
  | _ + 1, [] => []
  | fuel + 1, '%' :: h1 :: h2 :: rest =>
    match hexVal h1, hexVal h2 with
    | some a, some b => Char.ofNat (16 * a + b) :: percentDecodeFuel fuel rest
    | _, _ => '%' :: percentDecodeFuel fuel (h1 :: h2 :: rest)
  | fuel + 1, c :: rest => c :: percentDecodeFuel fuel rest

/-- Percent-decoding of a whole string. -/
def percentDecode (l : List Char) : List Char := percentDecodeFuel l.length l

/-- Model of `urllib.parse.unquote_plus`: `'+'` to space, then
percent-decoding. -/
def unquote_plus (l : List Char) : List Char := percentDecode (plusToSpace l)

/-- The part of a POSIX path after the last `'/'`. -/
def lastBasename (l : List Char) : List Char :=
  (l.reverse.takeWhile (fun c => c ≠ '/')).reverse

/-- The extension component of `os.path.splitext`: the suffix of the
basename from its last `'.'` on, provided some character of the basename
before that dot is not itself a dot (so `.bashrc` has no extension). -/
def splitextExt (p : List Char) : List Char :=
  let base := lastBasename p
  match splitFirst '.' base.reverse with
  | (revExt, some revBefore) =>
    if revBefore.reverse.any (fun c => c ≠ '.') then '.' :: revExt.reverse
    else []
  | (_, none) => []

/-- Model of `get_file_extension` (src/main.py lines 48-61):
`os.path.splitext(unquote_plus(urlsplit(url).path))[1]`. -/
def get_file_extension (url : String) : String :=
  String.mk (splitextExt (unquote_plus (urlsplitPath url.data)))

/-! The comic fetcher (src/main.py lines 15-21, 30-45, 64-88, 209-215). -/

/-- The `Comics` dataclass: comic metadata plus the derived local
filename. -/
structure Comics where
  title : String
  img_url : String
  alt_text : String
  filename : String := ""
deriving DecidableEq, Repr

/-- The string fields of the xkcd `info.0.json` metadata used by
`get_comics`, typed per the `Comics` dataclass annotations. -/
structure XkcdMeta where
  title : String
  img : String
  alt : String
deriving DecidableEq, Repr

/-- Model of `download_file` (src/main.py lines 30-45): fetch `file_url`
(the response status is `status`), raise for a 4xx/5xx status, otherwise
write the body to `path_to_download`, adding that path to the
filesystem. -/
def download_file (file_url : String) (path_to_download : String)
    (status : Nat) (fs : List String) : Except Exc (List String) :=
  if 400 ≤ status ∧ status < 600 then Except.error (Exc.httpStatusError status)
  else Except.ok (path_to_download :: fs)

/-- Model of the body of `get_comics` (src/main.py lines 64-88) after the
metadata request succeeded with decoded fields `xkcd_comics`: build the
`Comics` value, derive the filename
`comics{comics_number}_{title}{extension}`, and download the image to that
filename (`dlStatus` is the status of the image request).  The unused
`file_url` argument of `download_file` receives `img_url` exactly as in the
source. -/
def get_comics (comics_number : Nat) (xkcd_comics : XkcdMeta)
    (dlStatus : Nat) (fs : List String) : Except Exc (Comics × List String) :=
  let comics : Comics :=
    { title := xkcd_comics.title
      img_url := xkcd_comics.img
      alt_text := xkcd_comics.alt }
  let file_extension := get_file_extension comics.img_url
  let comics2 :=
    { comics with
        filename :=
          "comics" ++ toString comics_number ++ "_" ++ comics.title
            ++ file_extension }
  match download_file comics2.img_url comics2.filename dlStatus fs with
  | Except.ok fs2 => Except.ok (comics2, fs2)
  | Except.error e => Except.error e

/-- Model of `get_comics_amount` (src/main.py lines 209-215): raise for a
bad status, then return `response.json().get("num")`. -/
def get_comics_amount (response : HttpResponse) : Except Exc (Option Json) :=
  match raise_for_status response with
  | Except.error e => Except.error e
  | Except.ok _ => dictGet response.body "num"

/-! The VK upload/publish client (src/main.py lines 91-206). -/

/-- The `VK_API_VERSION` constant (the float `5.131`), as it is serialised
into request parameters. -/
def VK_API_VERSION : String := "5.131"

/-- Model of `get_wall_upload_server` (src/main.py lines 91-113) applied to
the received response: raise for a bad status, check for an embedded VK
error, then return `response.json().get("response").get("upload_url")`. -/
def get_wall_upload_server (response : HttpResponse) :
    Except Exc (Option Json) :=
  match raise_for_status response with
  | Except.error e => Except.error e
  | Except.ok _ =>
    match check_api_vk_response response.body with
    | Except.error e => Except.error e
    | Except.ok _ =>
      match dictGet response.body "response" with
      | Except.error e => Except.error e
      | Except.ok r => pyGetOpt r "upload_url"

/-- Model of `upload_image` (src/main.py lines 116-135) applied to the
received response: open the local file (raising `FileNotFoundError` when it
is absent), post it, raise for a bad status, check for an embedded VK
error, then return the decoded body. -/
def upload_image (fs : List String) (filename : String)
    (response : HttpResponse) : Except Exc Json :=
  if filename ∈ fs then
    match raise_for_status response with
    | Except.error e => Except.error e
    | Except.ok _ =>
      match check_api_vk_response response.body with
      | Except.error e => Except.error e
      | Except.ok _ => Except.ok response.body
  else Except.error Exc.fileNotFoundError

/-- Model of `save_wall_photo` (src/main.py lines 138-170) applied to the
received response: raise for a bad status, check for an embedded VK error,
then return `(response[0].get("id"), response[0].get("owner_id"))` from the
decoded body. -/
def save_wall_photo (response : HttpResponse) :
    Except Exc (Option Json × Option Json) :=
  match raise_for_status response with
  | Except.error e => Except.error e
  | Except.ok _ =>
    match check_api_vk_response response.body with
    | Except.error e => Except.error e
    | Except.ok _ =>
      match dictGet response.body "response" with
      | Except.error e => Except.error e
      | Except.ok r =>
        match pyIndex0 r with
        | Except.error e => Except.error e
        | Except.ok first =>
          match dictGet first "id" with
          | Except.error e => Except.error e
          | Except.ok uploaded_photo_id =>
            match dictGet first "owner_id" with
            | Except.error e => Except.error e
            | Except.ok app_owner_id =>
              Except.ok (uploaded_photo_id, app_owner_id)

/-- The request parameters of `publish_wall_post` (src/main.py lines
195-203), with the `int`-annotated arguments modelled as integers and each
value rendered as `requests` serialises it. -/
def publish_wall_post_payload (group_id : Int) (message : String)
    (photo_id : Int) (app_owner_id : Int) (vk_access_token : String)
    (from_group : Int) : List (String × String) :=
  [("owner_id", "-" ++ toString group_id),
   ("from_group", toString from_group),
   ("message", message),
   ("attachments", "photo" ++ toString app_owner_id ++ "_" ++ toString photo_id),
   ("access_token", vk_access_token),
   ("v", VK_API_VERSION)]

/-- Model of `publish_wall_post` (src/main.py lines 173-206) applied to the
received response: raise for a bad status, then check for an embedded VK
error. -/
def publish_wall_post (response : HttpResponse) : Except Exc Unit :=
  match raise_for_status response with
  | Except.error e => Except.error e
  | Except.ok _ => check_api_vk_response response.body

/-! The retry policy: every network function of the script is decorated
with `@retry(requests.exceptions.ConnectionError, tries=3, delay=10)`. -/

/-- The observable outcome of a retry-wrapped call: its final result, the
number of attempts made, and the sleeps performed between attempts. -/
structure RetryResult (α : Type) where
  result : Except Exc α
  attempts : Nat
  delays : List Nat

/-- Model of the `retry` library decorator: `f k` is the outcome of attempt
number `k`; on an exception of the decorated class (`ConnectionError`) with
attempts remaining, sleep `delay` and try again; any other exception is
re-raised at once. -/
def retryGo (f : Nat → Except Exc α) (delay : Nat) :
    Nat → Nat → RetryResult α
  | 0, k => { result := Except.error Exc.connError, attempts := k, delays := [] }
  | t + 1, k =>
    match f k with
    | Except.ok v => { result := Except.ok v, attempts := k + 1, delays := [] }
    | Except.error Exc.connError =>
      if t = 0 then
        { result := Except.error Exc.connError, attempts := k + 1, delays := [] }
      else
        let r := retryGo f delay t (k + 1)
        { result := r.result, attempts := r.attempts, delays := delay :: r.delays }
    | Except.error e =>
      { result := Except.error e, attempts := k + 1, delays := [] }

/-- A retry-wrapped call with `tries` total attempts and fixed `delay`. -/
def retryCall (tries delay : Nat) (f : Nat → Except Exc α) : RetryResult α :=
  retryGo f delay tries 0

/-- The retry wrapper used by every decorated function of the script:
`tries=3`, `delay=10`. -/
def vkRetry (f : Nat → Except Exc α) : RetryResult α := retryCall 3 10 f

/-- The retry configuration `(tries, delay)` of each decorated network
function in `src/main.py` (lines 64, 91, 116, 138, 173, 209). -/
def pipelineRetryConfigs : List (String × Nat × Nat) :=
  [("get_comics", 3, 10),
   ("get_wall_upload_server", 3, 10),
   ("upload_image", 3, 10),
   ("save_wall_photo", 3, 10),
   ("publish_wall_post", 3, 10),
   ("get_comics_amount", 3, 10)]

/-- An attempt oracle whose every attempt fails with a connection error. -/
def alwaysConnFail : Nat → Except Exc Unit :=
  fun _ => Except.error Exc.connError

/-- An attempt oracle whose every attempt fails with HTTP status 404. -/
def alwaysHttp404 : Nat → Except Exc Unit :=
  fun _ => Except.error (Exc.httpStatusError 404)

/-! The entry point `main` (src/main.py lines 218-262). -/

/-- Model of `random.randint(a, b)` (both bounds inclusive); `seed`
selects which value of the range is drawn. -/
def randint (a b seed : Nat) : Nat := a + seed % (b - a + 1)

/-- Model of `os.remove`: delete the path from the filesystem, raising
`FileNotFoundError` when it is absent. -/
def os_remove (fs : List String) (path : String) : Except Exc (List String) :=
  if path ∈ fs then Except.ok (fs.erase path)
  else Except.error Exc.fileNotFoundError

/-- Model of `with suppress(FileNotFoundError): os.remove(path)`
(src/main.py lines 261-262): a failed delete of a missing file is
swallowed. -/
def suppressRemove (fs : List String) (path : String) : List String :=
  match os_remove fs path with
  | Except.ok fs2 => fs2
  | Except.error _ => fs

/-- The resolved outcome of each retry-wrapped network call performed by
`main`, as a function of the data the script passes to it.  These oracles
stand for the external world: each one is the value of (or exception
escaping from) the corresponding decorated function. -/
structure NetOracle where
  amount : Except Exc Nat
  comics : Nat → Except Exc Comics
  uploadServer : Except Exc (Option Json)
  upload : Option Json → String → Except Exc Json
  save : Json → Except Exc (Option Json × Option Json)
  post : Option Json → Option Json → Except Exc Unit

/-- The fetch phase of `main` (src/main.py line 232-233): resolve the comic
count, draw `randint(1, count)`, fetch that comic. -/
def fetchComic (o : NetOracle) (seed : Nat) : Except Exc Comics :=
  match o.amount with
  | Except.error e => Except.error e
  | Except.ok count => o.comics (randint 1 count seed)

/-- The publish phase of `main` (src/main.py lines 238-255): get the upload
server, upload the image, save the wall photo, publish the post. -/
def phase2 (o : NetOracle) (comic : Comics) : Except Exc Unit :=
  match o.uploadServer with
  | Except.error e => Except.error e
  | Except.ok media_address =>
    match o.upload media_address comic.filename with
    | Except.error e => Except.error e
    | Except.ok media =>
      match o.save media with
      | Except.error e => Except.error e
      | Except.ok p => o.post p.1 p.2

/-- The log records `main` can emit: `logging.info('Потеряно соединение...')`
and `logging.info(f'HTTP Error. ...')` with the caught exception. -/
inductive LogEvent where
  | connectionLost
  | httpErrorLogged (e : Exc)

/-- Whether `main` returned normally or let an exception escape to the
interpreter. -/
inductive MainOutcome where
  | returned
  | raised (e : Exc)

/-- The observable behaviour of one run of `main`: its outcome, the log
records emitted, and the final filesystem. -/
structure MainTrace where
  outcome : MainOutcome
  log : List LogEvent
  fs : List String

namespace VkScript

/-- Model of `main` (src/main.py lines 218-262).  The first `try` block
(fetch phase) catches only `ConnectionError` and returns; any other
exception there escapes `main` and no cleanup block is entered.  After a
successful fetch the file `comic.filename` exists; the second `try` block
catches `HTTPError` (both transport `httpStatusError` and VK `apiError`,
which the script raises as `requests.HTTPError`) and `ConnectionError`,
and its `finally` removes the file, suppressing `FileNotFoundError`.
The surrounding namespace only avoids the special treatment of a top-level
`main` declaration. -/
def main (o : NetOracle) (seed : Nat) (fs0 : List String) : MainTrace :=
  match fetchComic o seed with
  | Except.error Exc.connError =>
    { outcome := MainOutcome.returned, log := [LogEvent.connectionLost], fs := fs0 }
  | Except.error e =>
    { outcome := MainOutcome.raised e, log := [], fs := fs0 }
  | Except.ok comic =>
    let fs1 := comic.filename :: fs0
    let r := phase2 o comic
    let fs2 := suppressRemove fs1 comic.filename
    match r with
    | Except.ok _ =>
      { outcome := MainOutcome.returned, log := [], fs := fs2 }
    | Except.error Exc.connError =>
      { outcome := MainOutcome.returned, log := [LogEvent.connectionLost], fs := fs2 }
    | Except.error (Exc.httpStatusError c) =>
      { outcome := MainOutcome.returned,
        log := [LogEvent.httpErrorLogged (Exc.httpStatusError c)], fs := fs2 }
    | Except.error (Exc.apiError m) =>
      { outcome := MainOutcome.returned,
        log := [LogEvent.httpErrorLogged (Exc.apiError m)], fs := fs2 }
    | Except.error e =>
      { outcome := MainOutcome.raised e, log := [], fs := fs2 }

end VkScript

/-- A concrete VK response whose HTTP status is 200 but whose body carries a
non-empty `error` object. -/
def vkErrorResponse : HttpResponse :=
  { statusCode := 200
    body := Json.obj
      [("error",
        Json.obj [("error_msg", Json.str "Something went wrong"),
                  ("error_code", Json.num 100)])] }

/-- A concrete successful `photos.saveWallPhoto` response with
`id = 10` and `owner_id = 20`. -/
def saveWallPhotoResponse : HttpResponse :=
  { statusCode := 200
    body := Json.obj
      [("response",
        Json.arr [Json.obj [("id", Json.num 10), ("owner_id", Json.num 20)]])] }

/-- A concrete successfully fetched comic. -/
def sampleComic : Comics :=
  { title := "a", img_url := "http://h/p.png", alt_text := "b",
    filename := "comics1_a.png" }

/-- An oracle whose fetch phase succeeds with `sampleComic` and whose
publish phase fails with a connection error at the first VK call. -/
def sampleOracle : NetOracle :=
  { amount := Except.ok 5
    comics := fun _ => Except.ok sampleComic
    uploadServer := Except.error Exc.connError
    upload := fun _ _ => Except.ok Json.null
    save := fun _ => Except.ok (none, none)
    post := fun _ _ => Except.ok () }

/-- An oracle whose fetch phase fails with an HTTP 404 status error (as the
real script does when hitting xkcd comic number 404). -/
def http404Oracle : NetOracle :=
  { amount := Except.error (Exc.httpStatusError 404)
    comics := fun _ => Except.ok sampleComic
    uploadServer := Except.ok none
    upload := fun _ _ => Except.ok Json.null
    save := fun _ => Except.ok (none, none)
    post := fun _ _ => Except.ok () }

/-- An oracle whose whole pipeline succeeds. -/
def happyOracle : NetOracle :=
  { amount := Except.ok 5
    comics := fun _ => Except.ok sampleComic
    uploadServer := Except.ok (some (Json.str "http://upload/"))
    upload := fun _ _ => Except.ok (Json.obj [])
    save := fun _ => Except.ok (some (Json.num 10), some (Json.num 20))
    post := fun _ _ => Except.ok () }

/-! Helper lemmas about `splitFirst` and the `urlsplit` model. -/

/-- Unfolding `splitFirst` over a head equal to `c`. -/
theorem splitFirst_cons_eq (c x : Char) (xs : List Char) (hx : x = c) :
    splitFirst c (x :: xs) = ([], some xs) := by
  simp [splitFirst, hx]

/-- Unfolding `splitFirst` over a head different from `c`. -/
theorem splitFirst_cons_ne (c x : Char) (xs : List Char) (hx : ¬ x = c) :
    splitFirst c (x :: xs) =
      (x :: (splitFirst c xs).1, (splitFirst c xs).2) := by
  simp [splitFirst, hx]

/-- When `c` does not occur, `splitFirst` returns the whole list and no
suffix. -/
theorem splitFirst_not_mem (c : Char) :
    ∀ l : List Char, c ∉ l → splitFirst c l = (l, none)
  | [], _ => rfl
  | x :: xs, h => by
    have hx : ¬ x = c := fun he => h (he ▸ List.mem_cons_self x xs)
    have hxs : c ∉ xs := fun hm => h (List.mem_cons_of_mem x hm)
    simp [splitFirst, hx, splitFirst_not_mem c xs hxs]

/-- `splitFirst` cuts exactly at an occurrence of `c` appended after a
`c`-free prefix. -/
theorem splitFirst_append_cons (c : Char) (l r : List Char) (h : c ∉ l) :
    splitFirst c (l ++ c :: r) = (l, some r) := by
  induction l with
  | nil => simp [splitFirst]
  | cons x xs ih =>
    have hx : ¬ x = c := fun he => h (he ▸ List.mem_cons_self x xs)
    have hxs : c ∉ xs := fun hm => h (List.mem_cons_of_mem x hm)
    simp [splitFirst, hx, ih hxs]

/-- Appending after a list in which `c` occurs only extends the suffix. -/
theorem splitFirst_append_left (c : Char) :
    ∀ l t a b : List Char, splitFirst c l = (a, some b) →
      splitFirst c (l ++ t) = (a, some (b ++ t))
  | [], t, a, b, h => by exact Option.noConfusion (congrArg Prod.snd h)
  | x :: xs, t, a, b, h => by
    by_cases hx : x = c
    · rw [splitFirst_cons_eq c x xs hx] at h
      injection h with h1 h2
      injection h2 with h2
      rw [List.cons_append, splitFirst_cons_eq c x (xs ++ t) hx, ← h1, ← h2]
    · cases hr : splitFirst c xs with
      | mk r1 r2 =>
        rw [splitFirst_cons_ne c x xs hx, hr] at h
        dsimp only at h
        injection h with h1 h2
        cases r2 with
        | none => exact Option.noConfusion h2
        | some b2 =>
          injection h2 with h2
          have ih := splitFirst_append_left c xs t r1 b2 hr
          rw [List.cons_append, splitFirst_cons_ne c x (xs ++ t) hx, ih]
          dsimp only
          rw [← h1, h2]

/-- Appending after a `c`-free list shifts `splitFirst` into the
appended part. -/
theorem splitFirst_append_not_mem (c : Char) (l t : List Char) (h : c ∉ l) :
    splitFirst c (l ++ t) = (l ++ (splitFirst c t).1, (splitFirst c t).2) := by
  induction l with
  | nil => simp
  | cons x xs ih =>
    have hx : ¬ x = c := fun he => h (he ▸ List.mem_cons_self x xs)
    have hxs : c ∉ xs := fun hm => h (List.mem_cons_of_mem x hm)
    simp [splitFirst, hx, ih hxs]

/-- When `splitFirst` finds no occurrence, the first component is the whole
list and `c` does not occur in it. -/
theorem splitFirst_none (c : Char) :
    ∀ l a : List Char, splitFirst c l = (a, none) → a = l ∧ c ∉ l
  | [], a, h => by
    injection h with h1 _
    exact ⟨h1.symm, fun hm => absurd hm (List.not_mem_nil c)⟩
  | x :: xs, a, h => by
    by_cases hx : x = c
    · rw [splitFirst_cons_eq c x xs hx] at h
      exact Option.noConfusion (congrArg Prod.snd h)
    · cases hr : splitFirst c xs with
      | mk r1 r2 =>
        rw [splitFirst_cons_ne c x xs hx, hr] at h
        dsimp only at h
        injection h with h1 h2
        have ih := splitFirst_none c xs r1 (by rw [hr, h2])
        constructor
        · rw [← h1, ih.1]
        · intro hm
          rcases List.mem_cons.mp hm with he | hm2
          · exact hx he.symm
          · exact ih.2 hm2

/-- Members of the prefix component of `splitFirst` are members of the
input. -/
theorem mem_splitFirst_fst (c d : Char) :
    ∀ l : List Char, d ∈ (splitFirst c l).1 → d ∈ l
  | [], h => by simp [splitFirst] at h
  | x :: xs, h => by
    by_cases hx : x = c
    · subst hx; simp [splitFirst] at h
    · simp [splitFirst, hx] at h
      rcases h with he | hm
      · exact he ▸ List.mem_cons_self x xs
      · exact List.mem_cons_of_mem x (mem_splitFirst_fst c d xs hm)

/-- Members of the suffix component of `splitFirst` are members of the
input. -/
theorem mem_splitFirst_snd (c d : Char) :
    ∀ l b : List Char, (splitFirst c l).2 = some b → d ∈ b → d ∈ l
  | [], b, h, _ => by simp [splitFirst] at h
  | x :: xs, b, h, hd => by
    by_cases hx : x = c
    · subst hx
      simp [splitFirst] at h
      exact List.mem_cons_of_mem x (by rw [h]; exact hd)
    · simp [splitFirst, hx] at h
      exact List.mem_cons_of_mem x (mem_splitFirst_snd c d xs b h hd)

/-- A list containing a non-scheme character is not a valid scheme. -/
theorem isValidScheme_false_of_mem (l : List Char) (d : Char) (hd : d ∈ l)
    (hc : schemeChar d = false) : isValidScheme l = false := by
  cases l with
  | nil => rfl
  | cons c0 cs =>
    cases hall : (c0 :: cs).all schemeChar with
    | false => simp [isValidScheme, hall]
    | true =>
      exfalso
      rw [List.all_eq_true] at hall
      have hdd := hall d hd
      rw [hc] at hdd
      exact Bool.false_ne_true hdd

/-- Members of `splitScheme u` are members of `u`. -/
theorem mem_splitScheme (d : Char) (u : List Char) (h : d ∈ splitScheme u) :
    d ∈ u := by
  cases hs : splitFirst ':' u with
  | mk a ob =>
    cases ob with
    | none =>
      unfold splitScheme at h
      rw [hs] at h
      exact h
    | some b =>
      unfold splitScheme at h
      rw [hs] at h
      dsimp only at h
      by_cases hv : isValidScheme a = true
      · rw [if_pos hv] at h
        exact mem_splitFirst_snd ':' d u b (by rw [hs]) h
      · rw [if_neg hv] at h
        exact h

/-- Appending `'?' :: q` after a `'?'`-free list commutes with scheme
stripping. -/
theorem splitScheme_append (p q : List Char) (hp : '?' ∉ p) :
    splitScheme (p ++ '?' :: q) = splitScheme p ++ '?' :: q := by
  cases hs : splitFirst ':' p with
  | mk a ob =>
    cases ob with
    | some b =>
      have hl := splitFirst_append_left ':' p ('?' :: q) a b hs
      unfold splitScheme
      rw [hs, hl]
      dsimp only
      by_cases hv : isValidScheme a = true
      · rw [if_pos hv, if_pos hv]
      · rw [if_neg hv, if_neg hv]
    | none =>
      have hn := splitFirst_none ':' p a hs
      have happ := splitFirst_append_not_mem ':' p ('?' :: q) hn.2
      rw [splitFirst_cons_ne ':' '?' q (by decide)] at happ
      dsimp only at happ
      cases hq2 : (splitFirst ':' q).2 with
      | none =>
        rw [hq2] at happ
        unfold splitScheme
        rw [hs, happ]
      | some r =>
        rw [hq2] at happ
        unfold splitScheme
        rw [hs, happ]
        dsimp only
        have hv : isValidScheme (p ++ '?' :: (splitFirst ':' q).1) = false :=
          isValidScheme_false_of_mem _ '?'
            (List.mem_append_right p (List.mem_cons_self _ _)) (by decide)
        rw [if_neg (by simp [hv])]

/-- Appending `'?' :: q` commutes with netloc stripping (`'?'` also ends a
netloc, so no hypothesis is needed). -/
theorem dropNetloc_append (u q : List Char) :
    dropNetloc (u ++ '?' :: q) = dropNetloc u ++ '?' :: q := by
  rcases u with _ | ⟨c1, _ | ⟨c2, rest⟩⟩
  · cases q with
    | nil => rfl
    | cons q0 qs =>
      show dropNetloc ('?' :: q0 :: qs) = '?' :: q0 :: qs
      simp only [dropNetloc]
      rw [if_neg (fun hc => absurd hc.1 (by decide))]
  · show dropNetloc (c1 :: '?' :: q) = dropNetloc [c1] ++ '?' :: q
    simp only [dropNetloc]
    rw [if_neg (fun hc => absurd hc.2 (by decide))]
    rfl
  · show dropNetloc (c1 :: c2 :: (rest ++ '?' :: q)) =
      dropNetloc (c1 :: c2 :: rest) ++ '?' :: q
    by_cases hc : c1 = '/' ∧ c2 = '/'
    · simp only [dropNetloc]
      rw [if_pos hc, if_pos hc, List.dropWhile_append]
      cases he : (rest.dropWhile notNetlocDelim).isEmpty with
      | true =>
        have hre : rest.dropWhile notNetlocDelim = [] :=
          List.isEmpty_iff.mp he
        have hnn : notNetlocDelim '?' = false := rfl
        simp [he, hre, List.dropWhile_cons, hnn]
      | false => simp [he]
    · simp only [dropNetloc]
      rw [if_neg hc, if_neg hc]
      rfl

/-- Members of `dropNetloc u` are members of `u`. -/
theorem mem_dropNetloc (d : Char) (u : List Char) (h : d ∈ dropNetloc u) :
    d ∈ u := by
  rcases u with _ | ⟨c1, _ | ⟨c2, rest⟩⟩
  · exact h
  · exact h
  · by_cases hc : c1 = '/' ∧ c2 = '/'
    · simp only [dropNetloc] at h
      rw [if_pos hc] at h
      have := (List.dropWhile_sublist notNetlocDelim (l := rest)).mem h
      exact List.mem_cons_of_mem c1 (List.mem_cons_of_mem c2 this)
    · simp only [dropNetloc] at h
      rwa [if_neg hc] at h

/-- C5: for every image URL, the extension appended to the derived filename
equals the file extension of the URL's path component alone; the query
string (here `q`) and the fragment (here `f`) never influence the
extension.  The URL is `p ++ "?" ++ q ++ "#" ++ f` where `p` (scheme,
netloc and path) contains no `'?'` or `'#'` and the query contains no
`'#'`; the computed extension equals `splitext` of the decoded path part of
`p`, for every `q` and `f`. -/
theorem C5_extension_ignores_query_and_fragment (p q f : List Char)
    (hp1 : '#' ∉ p) (hp2 : '?' ∉ p) (hq : '#' ∉ q) :
    get_file_extension (String.mk (p ++ '?' :: q ++ '#' :: f)) =
      String.mk (splitextExt (unquote_plus (dropNetloc (splitScheme p)))) ∧
    get_file_extension (String.mk p) =
      String.mk (splitextExt (unquote_plus (dropNetloc (splitScheme p)))) := by
  have hqmem : '?' ∉ dropNetloc (splitScheme p) := fun hm =>
    hp2 (mem_splitScheme '?' p (mem_dropNetloc '?' (splitScheme p) hm))
  constructor
  · have h1 : removeFragment (p ++ '?' :: q ++ '#' :: f) = p ++ '?' :: q := by
      have hmem : '#' ∉ p ++ '?' :: q := by
        intro hm
        rcases List.mem_append.mp hm with hm1 | hm2
        · exact hp1 hm1
        · rcases List.mem_cons.mp hm2 with he | hm3
          · exact absurd he (by decide)
          · exact hq hm3
      unfold removeFragment
      rw [splitFirst_append_cons '#' (p ++ '?' :: q) f hmem]
    have h4 : removeQuery (dropNetloc (splitScheme p) ++ '?' :: q) =
        dropNetloc (splitScheme p) := by
      unfold removeQuery
      rw [splitFirst_append_cons '?' (dropNetloc (splitScheme p)) q hqmem]
    have hfull : urlsplitPath (p ++ '?' :: q ++ '#' :: f) =
        dropNetloc (splitScheme p) := by
      unfold urlsplitPath
      rw [h1, splitScheme_append p q hp2, dropNetloc_append (splitScheme p) q, h4]
    unfold get_file_extension
    exact congrArg (fun l => String.mk (splitextExt (unquote_plus l))) hfull
  · have h1 : removeFragment p = p := by
      unfold removeFragment
      rw [splitFirst_not_mem '#' p hp1]
    have h4 : removeQuery (dropNetloc (splitScheme p)) =
        dropNetloc (splitScheme p) := by
      unfold removeQuery
      rw [splitFirst_not_mem '?' (dropNetloc (splitScheme p)) hqmem]
    have hfull : urlsplitPath p = dropNetloc (splitScheme p) := by
      unfold urlsplitPath
      rw [h1, h4]
    unfold get_file_extension
    exact congrArg (fun l => String.mk (splitextExt (unquote_plus l))) hfull

/-- Witness for C5 at the spec's end-to-end example URL
`http://x/y/img.png?s=1` (with a fragment added): the extension is computed
from the path part alone. -/
theorem C5_witness :
    ('#' ∉ "http://x/y/img.png".data) ∧ ('?' ∉ "http://x/y/img.png".data) ∧
    ('#' ∉ "s=1".data) ∧
    (get_file_extension
        (String.mk ("http://x/y/img.png".data ++ '?' :: "s=1".data ++
          '#' :: "frag".data)) =
      String.mk (splitextExt (unquote_plus
        (dropNetloc (splitScheme "http://x/y/img.png".data)))) ∧
     get_file_extension (String.mk "http://x/y/img.png".data) =
      String.mk (splitextExt (unquote_plus
        (dropNetloc (splitScheme "http://x/y/img.png".data))))) :=
  ⟨by decide, by decide, by decide,
   C5_extension_ignores_query_and_fragment "http://x/y/img.png".data
     "s=1".data "frag".data (by decide) (by decide) (by decide)⟩

/-- When the body's `error` field is a non-empty object,
`check_api_vk_response` raises the VK application error carrying
`error.get("error_msg")`. -/
theorem check_api_vk_response_error (body : Json)
    (efields : List (String × Json))
    (h : dictGet body "error" = Except.ok (some (Json.obj efields)))
    (hne : efields ≠ []) :
    check_api_vk_response body =
      Except.error (Exc.apiError (lookupField efields "error_msg")) := by
  cases efields with
  | nil => exact absurd rfl hne
  | cons kv rest =>
    unfold check_api_vk_response
    rw [h]
    rfl

/-- C2: for every social-platform call (get upload endpoint, upload photo,
save wall photo, publish post), when the HTTP status is a success but the
decoded JSON body carries a non-empty embedded `error` object, the call
raises the VK application-level error instead of returning success. -/
theorem C2_embedded_error_raises (response : HttpResponse)
    (efields : List (String × Json)) (fs : List String) (filename : String)
    (hstatus : response.statusCode < 400)
    (herr : dictGet response.body "error" =
      Except.ok (some (Json.obj efields)))
    (hne : efields ≠ []) (hfile : filename ∈ fs) :
    get_wall_upload_server response =
      Except.error (Exc.apiError (lookupField efields "error_msg")) ∧
    upload_image fs filename response =
      Except.error (Exc.apiError (lookupField efields "error_msg")) ∧
    save_wall_photo response =
      Except.error (Exc.apiError (lookupField efields "error_msg")) ∧
    publish_wall_post response =
      Except.error (Exc.apiError (lookupField efields "error_msg")) := by
  have hns : ¬(400 ≤ response.statusCode ∧ response.statusCode < 600) := by
    omega
  have hrs : raise_for_status response = Except.ok () := by
    unfold raise_for_status
    rw [if_neg hns]
  have hchk := check_api_vk_response_error response.body efields herr hne
  refine ⟨?_, ?_, ?_, ?_⟩
  · unfold get_wall_upload_server
    rw [hrs, hchk]
  · unfold upload_image
    rw [if_pos hfile, hrs, hchk]
  · unfold save_wall_photo
    rw [hrs, hchk]
  · unfold publish_wall_post
    rw [hrs, hchk]

/-- Witness for C2: a concrete HTTP 200 response whose body carries a
non-empty `error` object makes all four platform calls fail. -/
theorem C2_witness :
    (vkErrorResponse.statusCode < 400) ∧
    (dictGet vkErrorResponse.body "error" =
      Except.ok (some (Json.obj
        [("error_msg", Json.str "Something went wrong"),
         ("error_code", Json.num 100)]))) ∧
    (get_wall_upload_server vkErrorResponse =
        Except.error (Exc.apiError (some (Json.str "Something went wrong"))) ∧
      upload_image ["comics1_a.png"] "comics1_a.png" vkErrorResponse =
        Except.error (Exc.apiError (some (Json.str "Something went wrong"))) ∧
      save_wall_photo vkErrorResponse =
        Except.error (Exc.apiError (some (Json.str "Something went wrong"))) ∧
      publish_wall_post vkErrorResponse =
        Except.error (Exc.apiError (some (Json.str "Something went wrong")))) :=
  ⟨by decide, rfl,
   C2_embedded_error_raises vkErrorResponse
     [("error_msg", Json.str "Something went wrong"),
      ("error_code", Json.num 100)]
     ["comics1_a.png"] "comics1_a.png" (by decide) rfl
     (List.cons_ne_nil _ _) (List.mem_singleton.mpr rfl)⟩

/-- C1 (counterexample): at comic index 500, title `T` and image URL
`http://x/y/img.png?s=1`, the fetch step constructs the local filename
`comics500_T.png` — the source uses the prefix `comics`, so the filename is
not `comic500_T.png` as the claim states. -/
theorem C1_counterexample :
    get_comics 500
        { title := "T", img := "http://x/y/img.png?s=1", alt := "alt" }
        200 [] =
      Except.ok ({ title := "T", img_url := "http://x/y/img.png?s=1",
                   alt_text := "alt", filename := "comics500_T.png" },
        ["comics500_T.png"]) ∧
    "comics500_T.png" ≠ "comic500_T.png" :=
  ⟨rfl, by decide⟩

/-- C1 (amended): for every comic index, fetched metadata and successful
image download, the constructed local filename is exactly
`comics{index}_{title}{ext}` with `ext` derived from the image URL, and the
image is downloaded to that filename (the filesystem gains exactly that
path). -/
theorem C1_amended_filename (comics_number : Nat) (xkcd_comics : XkcdMeta)
    (dlStatus : Nat) (fs : List String)
    (hdl : ¬ (400 ≤ dlStatus ∧ dlStatus < 600)) :
    get_comics comics_number xkcd_comics dlStatus fs =
      Except.ok
        ({ title := xkcd_comics.title, img_url := xkcd_comics.img,
           alt_text := xkcd_comics.alt,
           filename := "comics" ++ toString comics_number ++ "_" ++
             xkcd_comics.title ++ get_file_extension xkcd_comics.img },
         ("comics" ++ toString comics_number ++ "_" ++ xkcd_comics.title ++
           get_file_extension xkcd_comics.img) :: fs) := by
  simp only [get_comics, download_file]
  rw [if_neg hdl]

/-- Witness for C1 (amended) at a concrete successful download. -/
theorem C1_amended_witness :
    (¬ (400 ≤ 200 ∧ 200 < 600)) ∧
    get_comics 1 { title := "a", img := "http://h/p.png", alt := "b" }
        200 [] =
      Except.ok ({ title := "a", img_url := "http://h/p.png", alt_text := "b",
                   filename := "comics" ++ toString 1 ++ "_" ++ "a" ++
                     get_file_extension "http://h/p.png" },
        ("comics" ++ toString 1 ++ "_" ++ "a" ++
          get_file_extension "http://h/p.png") :: []) :=
  ⟨by omega,
   C1_amended_filename 1 { title := "a", img := "http://h/p.png", alt := "b" }
     200 [] (by omega)⟩

/-- One-step unfolding of `retryGo` with attempts remaining. -/
theorem retryGo_succ {α : Type} (f : Nat → Except Exc α) (delay t k : Nat) :
    retryGo f delay (t + 1) k =
      match f k with
      | Except.ok v =>
        { result := Except.ok v, attempts := k + 1, delays := [] }
      | Except.error Exc.connError =>
        if t = 0 then
          { result := Except.error Exc.connError, attempts := k + 1,
            delays := [] }
        else
          { result := (retryGo f delay t (k + 1)).result,
            attempts := (retryGo f delay t (k + 1)).attempts,
            delays := delay :: (retryGo f delay t (k + 1)).delays }
      | Except.error e =>
        { result := Except.error e, attempts := k + 1, delays := [] } := rfl

/-- A run of `retryGo` whose every attempt fails with a connection error
uses all `t + 1` attempts, sleeps `delay` between consecutive attempts, and
finally reports the connection error. -/
theorem retryGo_all_conn {α : Type} (f : Nat → Except Exc α) (delay : Nat)
    (h : ∀ k, f k = Except.error Exc.connError) :
    ∀ t k, retryGo f delay (t + 1) k =
      { result := Except.error Exc.connError, attempts := k + t + 1,
        delays := List.replicate t delay }
  | 0, k => by
    rw [retryGo_succ, h k]
    dsimp only
    rw [if_pos rfl]
    simp
  | t + 1, k => by
    have ih := retryGo_all_conn f delay h t (k + 1)
    rw [retryGo_succ, h k]
    dsimp only
    rw [if_neg (Nat.succ_ne_zero t), ih]
    have harith : k + 1 + t + 1 = k + (t + 1) + 1 := by omega
    rw [List.replicate_succ, harith]

/-- A first attempt failing with anything other than a connection error is
re-raised at once: one attempt, no sleeps. -/
theorem retryGo_no_retry {α : Type} (f : Nat → Except Exc α)
    (delay t k : Nat) (e : Exc) (hne : e ≠ Exc.connError)
    (h : f k = Except.error e) :
    retryGo f delay (t + 1) k =
      { result := Except.error e, attempts := k + 1, delays := [] } := by
  rw [retryGo_succ, h]
  cases e with
  | connError => exact absurd rfl hne
  | httpStatusError code => rfl
  | apiError msg => rfl
  | attributeError => rfl
  | typeError => rfl
  | indexError => rfl
  | fileNotFoundError => rfl

/-- C3: a persistent connection-level failure is attempted exactly 3 times
in total (the decorator's `tries=3`: the initial call plus 2 re-attempts)
with the fixed 10-second delay between consecutive attempts, after which
the operation is reported as failed with the connection error; and every
network call of the pipeline carries this same `tries=3, delay=10` retry
policy. -/
theorem C3_retry_three_attempts {α : Type} (f : Nat → Except Exc α)
    (h : ∀ k, f k = Except.error Exc.connError) :
    vkRetry f =
      { result := Except.error Exc.connError, attempts := 3,
        delays := [10, 10] } ∧
    (pipelineRetryConfigs.all fun cfg => cfg.2.1 == 3 && cfg.2.2 == 10) =
      true :=
  ⟨retryGo_all_conn f 10 h 2 0, rfl⟩

/-- Witness for C3: the always-failing attempt oracle is attempted exactly
3 times with the two 10-second sleeps. -/
theorem C3_witness :
    (alwaysConnFail 0 = Except.error Exc.connError) ∧
    (vkRetry alwaysConnFail =
       { result := Except.error Exc.connError, attempts := 3,
         delays := [10, 10] } ∧
     (pipelineRetryConfigs.all fun cfg => cfg.2.1 == 3 && cfg.2.2 == 10) =
       true) :=
  ⟨rfl, C3_retry_three_attempts alwaysConnFail (fun _ => rfl)⟩

/-- C6: only connection-level errors are retried — a call whose first
attempt fails with an HTTP status (non-2xx) error or with a
platform-reported application-level error fails immediately: exactly one
attempt, no further attempts, no sleeps. -/
theorem C6_no_retry_on_http_or_api {α : Type} (f : Nat → Except Exc α)
    (e : Exc)
    (he : (∃ code, e = Exc.httpStatusError code) ∨
      (∃ msg, e = Exc.apiError msg))
    (h : f 0 = Except.error e) :
    vkRetry f =
      { result := Except.error e, attempts := 1, delays := [] } := by
  rcases he with ⟨code, rfl⟩ | ⟨msg, rfl⟩
  · exact retryGo_no_retry f 10 2 0 _ (fun hc => Exc.noConfusion hc) h
  · exact retryGo_no_retry f 10 2 0 _ (fun hc => Exc.noConfusion hc) h

/-- Witness for C6: an attempt oracle failing with HTTP 404 is not
retried. -/
theorem C6_witness :
    (alwaysHttp404 0 = Except.error (Exc.httpStatusError 404)) ∧
    vkRetry alwaysHttp404 =
      { result := Except.error (Exc.httpStatusError 404), attempts := 1,
        delays := [] } :=
  ⟨rfl, C6_no_retry_on_http_or_api alwaysHttp404 (Exc.httpStatusError 404)
    (Or.inl ⟨404, rfl⟩) rfl⟩

/-- C4 (counterexample): when the fetch phase fails with an HTTP status
error (e.g. status 404, which the real xkcd API returns for comic number
404), `main` logs nothing and lets the exception escape to the outer
caller — the run is not `returned`, contradicting the claim that every
failure of any phase is logged and `main` returns without propagating. -/
theorem C4_counterexample :
    VkScript.main http404Oracle 0 [] =
      { outcome := MainOutcome.raised (Exc.httpStatusError 404), log := [],
        fs := [] } ∧
    MainOutcome.raised (Exc.httpStatusError 404) ≠ MainOutcome.returned :=
  ⟨rfl, fun h => MainOutcome.noConfusion h⟩

/-- C4 (amended): a connection failure in the fetch phase, and connection,
HTTP-status or platform-reported failures in the publish phase, are logged
and `main` returns without propagating, with the temporary-file cleanup
running after every successful fetch; but a non-connection failure of the
fetch phase (e.g. an HTTP status error) propagates out of `main` unlogged,
and the cleanup block is then never entered (no file has been created at
that point). -/
theorem C4_amended (o : NetOracle) (seed : Nat) (fs0 : List String) :
    (fetchComic o seed = Except.error Exc.connError →
      VkScript.main o seed fs0 =
        { outcome := MainOutcome.returned, log := [LogEvent.connectionLost],
          fs := fs0 }) ∧
    (∀ e, fetchComic o seed = Except.error e → e ≠ Exc.connError →
      VkScript.main o seed fs0 =
        { outcome := MainOutcome.raised e, log := [], fs := fs0 }) ∧
    (∀ comic, fetchComic o seed = Except.ok comic →
      (phase2 o comic = Except.ok () →
        VkScript.main o seed fs0 =
          { outcome := MainOutcome.returned, log := [],
            fs := suppressRemove (comic.filename :: fs0) comic.filename }) ∧
      (phase2 o comic = Except.error Exc.connError →
        VkScript.main o seed fs0 =
          { outcome := MainOutcome.returned,
            log := [LogEvent.connectionLost],
            fs := suppressRemove (comic.filename :: fs0) comic.filename }) ∧
      (∀ code, phase2 o comic = Except.error (Exc.httpStatusError code) →
        VkScript.main o seed fs0 =
          { outcome := MainOutcome.returned,
            log := [LogEvent.httpErrorLogged (Exc.httpStatusError code)],
            fs := suppressRemove (comic.filename :: fs0) comic.filename }) ∧
      (∀ msg, phase2 o comic = Except.error (Exc.apiError msg) →
        VkScript.main o seed fs0 =
          { outcome := MainOutcome.returned,
            log := [LogEvent.httpErrorLogged (Exc.apiError msg)],
            fs := suppressRemove (comic.filename :: fs0) comic.filename })) := by
  refine ⟨?_, ?_, ?_⟩
  · intro h
    simp [VkScript.main, h]
  · intro e h hne
    cases e with
    | connError => exact absurd rfl hne
    | httpStatusError code => simp [VkScript.main, h]
    | apiError msg => simp [VkScript.main, h]
    | attributeError => simp [VkScript.main, h]
    | typeError => simp [VkScript.main, h]
    | indexError => simp [VkScript.main, h]
    | fileNotFoundError => simp [VkScript.main, h]
  · intro comic hf
    refine ⟨?_, ?_, ?_, ?_⟩
    · intro h2
      simp [VkScript.main, hf, h2]
    · intro h2
      simp [VkScript.main, hf, h2]
    · intro code h2
      simp [VkScript.main, hf, h2]
    · intro msg h2
      simp [VkScript.main, hf, h2]

/-- Witness for C4 (amended): with the sample oracle the fetch succeeds,
the publish phase fails with a connection error, and `main` returns with
the connection-loss log record and the cleaned-up filesystem. -/
theorem C4_amended_witness :
    (fetchComic sampleOracle 0 = Except.ok sampleComic) ∧
    (phase2 sampleOracle sampleComic = Except.error Exc.connError) ∧
    VkScript.main sampleOracle 0 [] =
      { outcome := MainOutcome.returned, log := [LogEvent.connectionLost],
        fs := suppressRemove (sampleComic.filename :: []) sampleComic.filename } :=
  ⟨rfl, rfl,
   (((C4_amended sampleOracle 0 []).2.2 sampleComic rfl).2.1 rfl)⟩

/-- C7: after a successful fetch, for every publish-phase outcome the
claim enumerates (success, HTTP error, connection error) the downloaded
temporary file is gone from the filesystem when `main` ends, and a delete
attempt on an already-missing file is suppressed rather than raised. -/
theorem C7_cleanup_removes_file (o : NetOracle) (seed : Nat)
    (fs0 : List String) (comic : Comics)
    (hf : fetchComic o seed = Except.ok comic)
    (hfs : comic.filename ∉ fs0)
    (hpub : phase2 o comic = Except.ok () ∨
      (∃ code, phase2 o comic = Except.error (Exc.httpStatusError code)) ∨
      phase2 o comic = Except.error Exc.connError) :
    (VkScript.main o seed fs0).fs = fs0 ∧
    comic.filename ∉ (VkScript.main o seed fs0).fs ∧
    os_remove fs0 comic.filename = Except.error Exc.fileNotFoundError ∧
    suppressRemove fs0 comic.filename = fs0 := by
  have hsr : suppressRemove (comic.filename :: fs0) comic.filename = fs0 := by
    unfold suppressRemove os_remove
    rw [if_pos (List.mem_cons_self comic.filename fs0)]
    simp [List.erase_cons_head]
  have hmain : (VkScript.main o seed fs0).fs = fs0 := by
    rcases hpub with h2 | ⟨code, h2⟩ | h2 <;>
      simp [VkScript.main, hf, h2, hsr]
  refine ⟨hmain, ?_, ?_, ?_⟩
  · rw [hmain]; exact hfs
  · unfold os_remove
    rw [if_neg hfs]
  · unfold suppressRemove os_remove
    rw [if_neg hfs]

/-- Witness for C7: the sample oracle's publish phase fails with a
connection error and the file created by the fetch is removed. -/
theorem C7_witness :
    (fetchComic sampleOracle 0 = Except.ok sampleComic) ∧
    (sampleComic.filename ∉ ([] : List String)) ∧
    (phase2 sampleOracle sampleComic = Except.error Exc.connError) ∧
    ((VkScript.main sampleOracle 0 []).fs = [] ∧
     sampleComic.filename ∉ (VkScript.main sampleOracle 0 []).fs ∧
     os_remove [] sampleComic.filename =
       Except.error Exc.fileNotFoundError ∧
     suppressRemove [] sampleComic.filename = []) :=
  ⟨rfl, by simp, rfl,
   C7_cleanup_removes_file sampleOracle 0 [] sampleComic rfl (by simp)
     (Or.inr (Or.inr rfl))⟩

/-- C8: for every `photo_id` and `owner_id` returned by the save-wall-photo
step, the wall-post request's attachment string is exactly
`photo{owner_id}_{photo_id}`, a deterministic function of those response
values. -/
theorem C8_attachment_string (response : HttpResponse)
    (photo_id app_owner_id : Int) (group_id : Int)
    (message vk_access_token : String) (from_group : Int)
    (h : save_wall_photo response =
      Except.ok (some (Json.num photo_id), some (Json.num app_owner_id))) :
    List.lookup "attachments"
        (publish_wall_post_payload group_id message photo_id app_owner_id
          vk_access_token from_group) =
      some ("photo" ++ toString app_owner_id ++ "_" ++ toString photo_id) :=
  rfl

/-- Witness for C8 at the spec's end-to-end example: `photo_id = 10`,
`owner_id = 20` yield the attachment `photo20_10`. -/
theorem C8_witness :
    (save_wall_photo saveWallPhotoResponse =
      Except.ok (some (Json.num 10), some (Json.num 20))) ∧
    List.lookup "attachments" (publish_wall_post_payload 1 "m" 10 20 "t" 0) =
      some "photo20_10" :=
  ⟨rfl, C8_attachment_string saveWallPhotoResponse 10 20 1 "m" "t" 0 rfl⟩

/-- C9: the randomly chosen comic index `randint(1, count)` always lies in
the inclusive range from 1 to `count` (the `num` field of the latest-comic
metadata): index 0 is never requested, and the latest comic itself is
reachable (drawn at seed `count - 1`). -/
theorem C9_index_in_range (count seed : Nat) (h : 1 ≤ count) :
    (1 ≤ randint 1 count seed ∧ randint 1 count seed ≤ count) ∧
    randint 1 count (count - 1) = count := by
  unfold randint
  have hc : count - 1 + 1 = count := by omega
  constructor
  · constructor
    · omega
    · rw [hc]
      have hm := Nat.mod_lt seed (show 0 < count by omega)
      omega
  · rw [hc, Nat.mod_eq_of_lt (show count - 1 < count by omega)]
    omega

/-- Witness for C9 at `count = 5`: the drawn index is within bounds and
seed 4 draws the latest comic. -/
theorem C9_witness :
    (1 ≤ 5) ∧
    ((1 ≤ randint 1 5 7 ∧ randint 1 5 7 ≤ 5) ∧ randint 1 5 4 = 5) :=
  ⟨by decide, C9_index_in_range 5 7 (by decide)⟩

/-- C10: for every `group_id`, the wall-post request's `owner_id` parameter
is the string `-{group_id}` — the group identifier prefixed with a minus
sign — and never the raw rendering of the group identifier itself. -/
theorem C10_owner_id_negated (group_id : Int) (message : String)
    (photo_id app_owner_id : Int) (vk_access_token : String)
    (from_group : Int) :
    List.lookup "owner_id"
        (publish_wall_post_payload group_id message photo_id app_owner_id
          vk_access_token from_group) =
      some ("-" ++ toString group_id) ∧
    "-" ++ toString group_id ≠ toString group_id := by
  refine ⟨rfl, ?_⟩
  intro h
  have hlen := congrArg String.length h
  rw [String.length_append] at hlen
  have hone : ("-" : String).length = 1 := rfl
  rw [hone] at hlen
  omega
